import Mathlib

/-!
Verification development for the flower federated-learning repository.

Embedded components:
* `src/py/flwr/server/strategy/fedadagrad.py` — the FedAdagrad strategy
  (class fields and `aggregate_fit`), embedded over exact rationals with
  an abstract square-root function `sq : ℚ → ℚ` standing for `np.sqrt`
  (the only transcendental operation the code uses).
* `src/flower_benchmark/cifar/server.py` — the strategy-selection phase of
  `main` and `get_on_fit_config_fn`.

The FedAvg / FedOpt superclass code (`fedavg.py`, `fedopt.py`) is not part
of the source tree; the weighted-average aggregation that
`super().aggregate_fit` performs is modelled from the specification.

Python runtime behaviour that the code can trigger is made explicit:
`IndexError` on empty-list subscripts and numpy's `ValueError` for the
truth value of a multi-element array are modelled with `Except`.
-/

namespace Flower

/-- A tensor: numpy arrays are modelled as flat lists of exact rationals;
all operations the code performs on them are elementwise, so the
flattened view is faithful. -/
abbrev Tensor := List ℚ

/-- `Weights = List[np.ndarray]` from `flwr.common`. -/
abbrev Weights := List Tensor

/-- One client fit result: its resulting weights and `num_examples`. -/
structure FitRes where
  weights : Weights
  numExamples : ℕ
deriving DecidableEq, Repr

/-- Python truthiness of a numpy array (`bool(arr)`): a one-element array
is truthy iff its element is nonzero; an empty array is falsy (numpy of
this era returns False with a deprecation warning); any larger array
raises `ValueError: ambiguous truth value`. -/
def npTruthy (t : Tensor) : Except String Bool :=
  match t with
  | [] => Except.ok false
  | [x] => Except.ok (if x = 0 then false else true)
  | _ => Except.error "ValueError: ambiguous truth value"

/-- `not self.v_t` where `self.v_t : Optional[np.ndarray]`: `None` is
falsy; otherwise numpy array truthiness, negated. -/
def vtFalsy (v : Option Tensor) : Except String Bool :=
  match v with
  | none => Except.ok true
  | some t => (npTruthy t).map (fun b => !b)

/-- Elementwise subtraction of two same-shaped arrays (`a - b`). -/
def subT (a b : Tensor) : Tensor := List.zipWith (fun x y => x - y) a b

/-- Elementwise addition (`a + b`). -/
def addT (a b : Tensor) : Tensor := List.zipWith (fun x y => x + y) a b

/-- Elementwise product (`np.multiply(a, b)`). -/
def mulT (a b : Tensor) : Tensor := List.zipWith (fun x y => x * y) a b

/-- `np.zeros_like(t)`. -/
def zerosLike (t : Tensor) : Tensor := t.map (fun _ => (0 : ℚ))

/-- Modelled from the spec: the FedAvg weighted average performed by
`super().aggregate_fit` (the file `flwr/server/strategy/fedavg.py` is not
in the source tree).  Spec: "a weighted average of client Parameters,
weight = that client's `num_examples`, i.e. `sum(w_i * params_i) /
sum(w_i)` per tensor."  The output shape is taken from the first result;
the spec's shape-compatibility invariant makes all client shapes agree. -/
def fedavg (rs : List FitRes) : Weights :=
  match rs with
  | [] => []
  | r :: _ =>
      (List.range r.weights.length).map (fun j =>
        (List.range (r.weights.getD j []).length).map (fun k =>
          ((rs.map (fun x => (x.numExamples : ℚ) * ((x.weights.getD j []).getD k 0))).sum)
            / ((rs.map (fun x => (x.numExamples : ℚ))).sum)))

/-- Modelled from the spec: `FedAvg.aggregate_fit` as inherited through
`FedOpt` (neither `fedavg.py` nor `fedopt.py` is in the source tree).
Spec: "if `accept_failures` is false and `failures` is non-empty,
`aggregate_fit` ... must return no result for that round"; "zero results:
`aggregate_fit` returns no Parameters".  Otherwise the weighted average.
The round number is accepted and unused, matching the signature. -/
def fedavgAggregateFit (accept_failures : Bool) (rnd : ℕ) (results : List FitRes)
    (failures : List String) : Option Weights :=
  if accept_failures = false ∧ failures ≠ [] then none
  else if results = [] then none
  else some (fedavg results)

/-- The FedAdagrad strategy state: hyperparameters `eta`, `tau` (the
client rate `eta_l` is stored by `__init__` but unused by
`aggregate_fit`, so omitted), the `accept_failures` flag, and the
second-moment accumulator `self.v_t : Optional[np.ndarray]`, set to
`None` by `__init__`. -/
structure FedAdagrad where
  eta : ℚ
  tau : ℚ
  accept_failures : Bool
  v_t : Option Tensor
deriving DecidableEq, Repr

/-- `FedAdagrad.aggregate_fit(rnd, results, failures, previous_weights)`,
line by line.  `sq` stands for `np.sqrt`.  Python's default argument
`previous_weights = []` means callers may omit it; the model takes it
explicitly.  Returns the new `weights` (or `None`) together with the
post-call strategy state, or the uncaught exception:
`fedavg_aggregate[0]` / `previous_weights[0]` raise `IndexError` on an
empty list, and `not self.v_t` raises numpy's `ValueError` when `v_t`
holds a multi-element array. -/
def FedAdagrad.aggregate_fit (sq : ℚ → ℚ) (s : FedAdagrad) (rnd : ℕ)
    (results : List FitRes) (failures : List String) (previous_weights : Weights) :
    Except String (Option Weights × FedAdagrad) :=
  match fedavgAggregateFit s.accept_failures rnd results failures with
  | none => Except.ok (none, s)
  | some fedavg_aggregate =>
    match fedavg_aggregate, previous_weights with
    | [], _ => Except.error "IndexError: fedavg_aggregate[0] out of range"
    | _ :: _, [] => Except.error "IndexError: previous_weights[0] out of range"
    | agg0 :: _, prev0 :: _ =>
      let delta_t := subT agg0 prev0
      match vtFalsy s.v_t with
      | Except.error e => Except.error e
      | Except.ok falsy =>
        let v_base := if falsy then zerosLike delta_t else s.v_t.getD []
        let v_new := addT v_base (mulT delta_t delta_t)
        let weights : Weights :=
          [addT prev0 ((delta_t.zip v_new).map (fun dv =>
            s.eta * dv.1 / (sq dv.2 + s.tau)))]
        Except.ok (some weights, FedAdagrad.mk s.eta s.tau s.accept_failures (some v_new))

/-- The spec's accumulator update, stated from its words:
`v_t += delta_t ⊙ delta_t` (elementwise). -/
def adagradVt (v delta : Tensor) : Tensor :=
  List.zipWith (fun a b => a + b) v (List.zipWith (fun a b => a * b) delta delta)

/-- The spec's parameter update, stated from its words:
`new_params = previous_params + eta * delta_t / (sqrt(v_t) + tau)`
(elementwise; `sq` is the square root). -/
def adagradNewParams (sq : ℚ → ℚ) (eta tau : ℚ) (prev delta v : Tensor) : Tensor :=
  List.zipWith (fun p u => p + u) prev
    (List.zipWith (fun d vv => eta * d / (sq vv + tau)) delta v)

/-- The spec's recommended variant of `aggregate_fit` (design note: "implementers
should initialize the accumulator explicitly to zero-shaped-like on first call
rather than relying on a truthiness check"): identical to
`FedAdagrad.aggregate_fit` except that the accumulator is initialized exactly
when `v_t` is `None`, with no array-truthiness test. -/
def FedAdagrad.aggregate_fit_explicitInit (sq : ℚ → ℚ) (s : FedAdagrad) (rnd : ℕ)
    (results : List FitRes) (failures : List String) (previous_weights : Weights) :
    Except String (Option Weights × FedAdagrad) :=
  match fedavgAggregateFit s.accept_failures rnd results failures with
  | none => Except.ok (none, s)
  | some fedavg_aggregate =>
    match fedavg_aggregate, previous_weights with
    | [], _ => Except.error "IndexError: fedavg_aggregate[0] out of range"
    | _ :: _, [] => Except.error "IndexError: previous_weights[0] out of range"
    | agg0 :: _, prev0 :: _ =>
      let delta_t := subT agg0 prev0
      let v_base := match s.v_t with
        | none => zerosLike delta_t
        | some t => t
      let v_new := addT v_base (mulT delta_t delta_t)
      let weights : Weights :=
        [addT prev0 ((delta_t.zip v_new).map (fun dv =>
          s.eta * dv.1 / (sq dv.2 + s.tau)))]
      Except.ok (some weights, FedAdagrad.mk s.eta s.tau s.accept_failures (some v_new))

/-! ### `flower_benchmark/cifar/server.py` -/

/-- The strategy object `main` builds, with the constructor arguments that are
computed (rather than fixed literals) recorded in each variant. -/
inductive StrategyChoice
  | fedavg
  | fastAndSlow (importance_sampling dynamic_timeout alternating_timeout : Bool)
      (t_fast t_slow : ℕ)
  | fedfsV0 (t_fast t_slow : ℕ)
  | fedfsV1 (t_max : ℕ)
  | qffedavg
deriving DecidableEq, Repr

/-- The fields of the benchmark `ServerSetting` that the modelled fragment of
`main` reads (the settings module itself is configuration data outside the
core). -/
structure ServerSetting where
  strategy : String
  rounds : ℕ
  lr_initial : ℚ
  training_round_timeout : Option ℕ
  training_round_timeout_short : Option ℕ
  sample_fraction : ℚ
  min_sample_size : ℕ
  min_num_clients : ℕ
  importance_sampling : Bool
  dynamic_timeout : Bool
  alternating_timeout : Bool
  partial_updates : Bool
  dry_run : Bool
deriving DecidableEq, Repr

/-- `math.ceil(0.5 * t)` for a natural timeout `t`. -/
def ceilHalf (t : ℕ) : ℕ := (t + 1) / 2

/-- `t_fast = math.ceil(0.5 * timeout) if timeout_short is None else timeout_short`. -/
def tFastOf (timeout : ℕ) (short : Option ℕ) : ℕ :=
  match short with
  | none => ceilHalf timeout
  | some ts => ts

/-- How the strategy-selection phase of `main` ends: a `ValueError` raised
before the server is instantiated, a `NameError` at `str(strategy)` when no
branch assigned `strategy`, or `fl.Server(...)` instantiated and
`fl.app.start_server` reached with the built strategy and round count. -/
inductive MainOutcome
  | valueError (msg : String)
  | nameError
  | serverStarted (strat : StrategyChoice) (rounds : ℕ)
deriving DecidableEq, Repr

/-- The strategy-selection phase of `main` (lines 83–170): the chain of
`if server_setting.strategy == ...` blocks, each timeout-dependent branch
raising `ValueError` when `training_round_timeout` is `None`, followed by
server instantiation and `start_server`.  The string equalities are mutually
exclusive, so the successive `if`s behave as a chain. -/
def mainStrategyPhase (s : ServerSetting) : MainOutcome :=
  if s.strategy = "fedavg" then
    MainOutcome.serverStarted StrategyChoice.fedavg s.rounds
  else if s.strategy = "fast-and-slow" then
    match s.training_round_timeout with
    | none => MainOutcome.valueError
        "No `training_round_timeout` set for `fast-and-slow` strategy"
    | some t => MainOutcome.serverStarted
        (StrategyChoice.fastAndSlow s.importance_sampling s.dynamic_timeout
          s.alternating_timeout (tFastOf t s.training_round_timeout_short) t) s.rounds
  else if s.strategy = "fedfs-v0" then
    match s.training_round_timeout with
    | none => MainOutcome.valueError
        "No `training_round_timeout` set for `fedfs-v0` strategy"
    | some t => MainOutcome.serverStarted
        (StrategyChoice.fedfsV0 (tFastOf t s.training_round_timeout_short) t) s.rounds
  else if s.strategy = "fedfs-v1" then
    match s.training_round_timeout with
    | none => MainOutcome.valueError
        "No `training_round_timeout` set for `fedfs-v1` strategy"
    | some t => MainOutcome.serverStarted (StrategyChoice.fedfsV1 t) s.rounds
  else if s.strategy = "qffedavg" then
    MainOutcome.serverStarted StrategyChoice.qffedavg s.rounds
  else
    MainOutcome.nameError

/-- `get_on_fit_config_fn(lr_initial, timeout, partial_updates)` and the
`fit_config(rnd)` closure it returns: a fresh association list built per
round; every value is a `str(...)` rendering (the exact float rendering of
`lr_initial` and `0.99` is abstracted by `toString` on exact rationals). -/
def get_on_fit_config_fn (lr_initial : ℚ) (timeout : Option ℕ)
    (partial_updates : Bool) : ℕ → List (String × String) := fun rnd =>
  let config : List (String × String) :=
    [("epoch_global", toString rnd),
     ("epochs", toString 1),
     ("batch_size", toString 10),
     ("lr_initial", toString lr_initial),
     ("lr_decay", toString (99 / 100 : ℚ)),
     ("partial_updates", if partial_updates then "1" else "0")]
  match timeout with
  | none => config
  | some t => config ++ [("timeout", toString t)]

/-! ### Helper lemmas -/

/-- Mapping a binary function over a zip is the corresponding `zipWith`. -/
theorem map_zip_eq_zipWith {α β γ : Type} (g : α → β → γ) :
    ∀ (l₁ : List α) (l₂ : List β),
      (l₁.zip l₂).map (fun p => g p.1 p.2) = List.zipWith g l₁ l₂
  | [], _ => rfl
  | _ :: _, [] => rfl
  | a :: as, b :: bs => by
      simpa using map_zip_eq_zipWith g as bs

/-- The length of the `j`-th element of a list of lists, via the list of
lengths. -/
theorem getD_length_map (w : Weights) : ∀ (j : ℕ),
    (w.getD j []).length = (w.map List.length).getD j 0 := by
  induction w with
  | nil => intro j; rfl
  | cons x xs ih =>
      intro j
      cases j with
      | zero => rfl
      | succ j => simpa [List.getD] using ih j

/-- Reading every position of a list back off with `getD` reproduces it. -/
theorem range_map_getD {α : Type} (d : α) :
    ∀ (l : List α), (List.range l.length).map (fun k => l.getD k d) = l := by
  intro l
  induction l with
  | nil => rfl
  | cons x xs ih =>
      rw [List.length_cons, List.range_succ_eq_map, List.map_cons, List.map_map]
      refine congrArg (List.cons x) ?_
      calc List.map ((fun k => (x :: xs).getD k d) ∘ Nat.succ) (List.range xs.length)
          = List.map (fun k => xs.getD k d) (List.range xs.length) := by
            refine List.map_congr_left ?_
            intro a _
            rfl
        _ = xs := ih

/-- The zip-then-map form of the code's update against the `zipWith` form. -/
theorem zip_map_div (sq : ℚ → ℚ) (eta tau : ℚ) :
    ∀ (l₁ l₂ : List ℚ),
      (l₁.zip l₂).map (fun dv => eta * dv.1 / (sq dv.2 + tau)) =
        List.zipWith (fun d vv => eta * d / (sq vv + tau)) l₁ l₂
  | [], _ => rfl
  | _ :: _, [] => rfl
  | a :: as, b :: bs => by
      simpa using zip_map_div sq eta tau as bs

/-! ### Claim theorems -/

/-- C1: whenever the underlying FedAvg aggregation yields a result (and the
call raises no exception: the aggregate and previous weights are non-empty
lists and the accumulator truthiness test evaluates to a boolean),
`FedAdagrad.aggregate_fit` performs exactly the spec's Adagrad-style update:
the accumulator becomes `v_t + delta_t ⊙ delta_t` (with `v_t` read as zeros
when the lazy check fires) and the returned parameters are
`previous_params + eta * delta_t / (sqrt(v_t) + tau)`, where
`delta_t = FedAvg(results) - previous_parameters` on the processed tensor. -/
theorem c1_adagrad_update (sq : ℚ → ℚ) (s : FedAdagrad) (rnd : ℕ)
    (results : List FitRes) (failures : List String) (previous_weights : Weights)
    (agg0 : Tensor) (aggRest : Weights) (prev0 : Tensor) (prevRest : Weights) (falsy : Bool)
    (hagg : fedavgAggregateFit s.accept_failures rnd results failures = some (agg0 :: aggRest))
    (hprev : previous_weights = prev0 :: prevRest)
    (hvt : vtFalsy s.v_t = Except.ok falsy) :
    s.aggregate_fit sq rnd results failures previous_weights =
      Except.ok
        (some [adagradNewParams sq s.eta s.tau prev0 (subT agg0 prev0)
            (adagradVt (if falsy then zerosLike (subT agg0 prev0) else s.v_t.getD [])
              (subT agg0 prev0))],
         FedAdagrad.mk s.eta s.tau s.accept_failures
           (some (adagradVt (if falsy then zerosLike (subT agg0 prev0) else s.v_t.getD [])
             (subT agg0 prev0)))) := by
  subst hprev
  simp only [FedAdagrad.aggregate_fit, hagg, hvt]
  rw [zip_map_div]
  rfl

/-- C1 witness: one client with weights `[[1]]`, previous weights `[[0]]`,
fresh strategy with `eta = tau = 1` and the square root evaluated as 0 here:
the update produces `v_t = [1]` and parameter `0 + 1 * 1 / (0 + 1) = 1`. -/
theorem c1_adagrad_update_witness :
    FedAdagrad.aggregate_fit (fun _ => 0) (FedAdagrad.mk 1 1 true none) 1
        [FitRes.mk [[1]] 1] [] [[0]] =
      Except.ok (some [[1]], FedAdagrad.mk 1 1 true (some [1])) := by
  have h := c1_adagrad_update (fun _ => 0) (FedAdagrad.mk 1 1 true none) 1
    [FitRes.mk [[1]] 1] [] [[0]] [1] [] [0] [] true
    (by simp [fedavgAggregateFit, fedavg, List.range_succ]) rfl rfl
  exact h.trans (by simp [adagradNewParams, adagradVt, subT, zerosLike])

/-- C2: accumulator persistence across rounds, on the spec's own numbers.
From a fresh instance with `eta = 0.1`, `tau = 10⁻⁹`: a first call with
`previous_params = [0]` and FedAvg aggregate `[2]` (one client, weights
`[[2]]`) leaves `v_t = [4]` and returns `0.1 * 2 / (sqrt 4 + 10⁻⁹)`,
which is within `10⁻⁸` of `0.1`; a second identical call accumulates
`v_t = [8]` and returns `0.1 * 2 / (sqrt 8 + 10⁻⁹)`. -/
theorem c2_accumulator_persistence (sq : ℚ → ℚ) (h4 : sq 4 = 2) :
    FedAdagrad.aggregate_fit sq (FedAdagrad.mk (1/10) (1/10^9) true none) 1
        [FitRes.mk [[2]] 1] [] [[0]] =
      Except.ok (some [[1/10 * 2 / (2 + 1/10^9)]],
        FedAdagrad.mk (1/10) (1/10^9) true (some [4])) ∧
    |1/10 * 2 / (2 + 1/10^9) - 1/10| < (1 : ℚ)/10^8 ∧
    FedAdagrad.aggregate_fit sq (FedAdagrad.mk (1/10) (1/10^9) true (some [4])) 2
        [FitRes.mk [[2]] 1] [] [[0]] =
      Except.ok (some [[1/10 * 2 / (sq 8 + 1/10^9)]],
        FedAdagrad.mk (1/10) (1/10^9) true (some [8])) := by
  have hagg : ∀ rnd : ℕ, fedavgAggregateFit true rnd [FitRes.mk [[2]] 1] [] = some ([2] :: []) := by
    intro rnd
    norm_num [fedavgAggregateFit, fedavg, List.range_succ]
  have hvt1 : vtFalsy (none : Option Tensor) = Except.ok true := rfl
  have hvt2 : vtFalsy (some [4] : Option Tensor) = Except.ok false := by
    norm_num [vtFalsy, npTruthy, Except.map]
  refine ⟨?_, ?_, ?_⟩
  · simp only [FedAdagrad.aggregate_fit, hagg, hvt1]
    norm_num [subT, addT, mulT, zerosLike, h4]
  · rw [abs_sub_lt_iff]
    constructor <;> norm_num
  · simp only [FedAdagrad.aggregate_fit, hagg, hvt2]
    norm_num [subT, addT, mulT, zerosLike]

/-- C2 witness: the square root instantiated with the constant function 2
(which satisfies `sqrt 4 = 2`). -/
theorem c2_accumulator_persistence_witness :
    FedAdagrad.aggregate_fit (fun _ => 2) (FedAdagrad.mk (1/10) (1/10^9) true none) 1
        [FitRes.mk [[2]] 1] [] [[0]] =
      Except.ok (some [[1/10 * 2 / (2 + 1/10^9)]],
        FedAdagrad.mk (1/10) (1/10^9) true (some [4])) ∧
    |1/10 * 2 / (2 + 1/10^9) - 1/10| < (1 : ℚ)/10^8 ∧
    FedAdagrad.aggregate_fit (fun _ => 2) (FedAdagrad.mk (1/10) (1/10^9) true (some [4])) 2
        [FitRes.mk [[2]] 1] [] [[0]] =
      Except.ok (some [[1/10 * 2 / (2 + 1/10^9)]],
        FedAdagrad.mk (1/10) (1/10^9) true (some [8])) :=
  c2_accumulator_persistence (fun _ => 2) rfl

/-- C3: when `accept_failures` is false and the failures list is non-empty,
`aggregate_fit` returns `None` and the whole strategy state — in particular
the accumulator `v_t` — is returned unchanged. -/
theorem c3_fail_closed (sq : ℚ → ℚ) (s : FedAdagrad) (rnd : ℕ)
    (results : List FitRes) (failures : List String) (previous_weights : Weights)
    (haf : s.accept_failures = false) (hfail : failures ≠ []) :
    s.aggregate_fit sq rnd results failures previous_weights = Except.ok (none, s) := by
  have h : fedavgAggregateFit s.accept_failures rnd results failures = none := by
    simp [fedavgAggregateFit, haf, hfail]
  simp only [FedAdagrad.aggregate_fit, h]

/-- C3 witness: a strategy with `accept_failures = False` and accumulator
`[4]`, one failure: the call returns `None` with the state untouched. -/
theorem c3_fail_closed_witness :
    FedAdagrad.aggregate_fit (fun _ => 0) (FedAdagrad.mk 1 1 false (some [4])) 1
        [FitRes.mk [[2]] 1] ["client crashed"] [[0]] =
      Except.ok (none, FedAdagrad.mk 1 1 false (some [4])) :=
  c3_fail_closed (fun _ => 0) (FedAdagrad.mk 1 1 false (some [4])) 1
    [FitRes.mk [[2]] 1] ["client crashed"] [[0]] rfl (List.cons_ne_nil _ _)

/-- C4 (recording the divergence): with two previous-parameter tensors
`[[0], [0]]` and one client whose two tensors are `[[2], [3]]`, the code
returns a one-tensor list — only `previous_weights[0]` is updated, the
second tensor is dropped and `v_t` has the first tensor's shape — rather
than a same-length list with every tensor updated. -/
theorem c4_first_tensor_only :
    FedAdagrad.aggregate_fit (fun _ => 0) (FedAdagrad.mk 1 1 true none) 1
        [FitRes.mk [[1], [7]] 1] [] [[0], [0]] =
      Except.ok (some [[1]], FedAdagrad.mk 1 1 true (some [1])) ∧
    ([[1]] : Weights).length = 1 ∧ ([[0], [0]] : Weights).length = 2 := by
  refine ⟨?_, rfl, rfl⟩
  simp [FedAdagrad.aggregate_fit, fedavgAggregateFit, fedavg, vtFalsy, npTruthy,
    subT, addT, mulT, zerosLike, List.range_succ]

/-- C5: the lazy truthiness-based initialization of `v_t` and the spec's
recommended explicit `None`-test initialization diverge on a run whose
first delta is all zeros: after a first round with two-element zero delta
both leave `v_t = [0, 0]` and return the same parameters, but the second
round raises the ambiguous-truth-value error under the lazy check while
the explicit-initialization variant performs the Adagrad update. -/
theorem c5_lazy_init_divergence :
    FedAdagrad.aggregate_fit (fun _ => 0) (FedAdagrad.mk 1 1 true none) 1
        [FitRes.mk [[0, 0]] 1] [] [[0, 0]] =
      Except.ok (some [[0, 0]], FedAdagrad.mk 1 1 true (some [0, 0])) ∧
    FedAdagrad.aggregate_fit (fun _ => 0) (FedAdagrad.mk 1 1 true (some [0, 0])) 2
        [FitRes.mk [[1, 1]] 1] [] [[0, 0]] =
      Except.error "ValueError: ambiguous truth value" ∧
    FedAdagrad.aggregate_fit_explicitInit (fun _ => 0) (FedAdagrad.mk 1 1 true none) 1
        [FitRes.mk [[0, 0]] 1] [] [[0, 0]] =
      Except.ok (some [[0, 0]], FedAdagrad.mk 1 1 true (some [0, 0])) ∧
    FedAdagrad.aggregate_fit_explicitInit (fun _ => 0) (FedAdagrad.mk 1 1 true (some [0, 0])) 2
        [FitRes.mk [[1, 1]] 1] [] [[0, 0]] =
      Except.ok (some [[1, 1]], FedAdagrad.mk 1 1 true (some [1, 1])) := by
  refine ⟨?_, ?_, ?_, ?_⟩ <;>
    simp [FedAdagrad.aggregate_fit, FedAdagrad.aggregate_fit_explicitInit,
      fedavgAggregateFit, fedavg, vtFalsy, npTruthy, Except.map,
      subT, addT, mulT, zerosLike, List.range_succ]

/-- C9: whenever the underlying FedAvg aggregation yields a (non-empty)
result, calling `aggregate_fit` with the default `previous_weights = []`
hits `previous_weights[0]` and raises `IndexError` instead of returning
parameters. -/
theorem c9_empty_default_previous (sq : ℚ → ℚ) (s : FedAdagrad) (rnd : ℕ)
    (results : List FitRes) (failures : List String) (agg0 : Tensor) (aggRest : Weights)
    (hagg : fedavgAggregateFit s.accept_failures rnd results failures = some (agg0 :: aggRest)) :
    s.aggregate_fit sq rnd results failures [] =
      Except.error "IndexError: previous_weights[0] out of range" := by
  simp only [FedAdagrad.aggregate_fit, hagg]

/-- C9 witness: one client, no failures, fresh strategy, `previous_weights`
left at its default `[]`: the call raises `IndexError`. -/
theorem c9_empty_default_previous_witness :
    FedAdagrad.aggregate_fit (fun _ => 0) (FedAdagrad.mk 1 1 true none) 1
        [FitRes.mk [[1]] 1] [] [] =
      Except.error "IndexError: previous_weights[0] out of range" :=
  c9_empty_default_previous (fun _ => 0) (FedAdagrad.mk 1 1 true none) 1
    [FitRes.mk [[1]] 1] [] [1] []
    (by simp [fedavgAggregateFit, fedavg, List.range_succ])

/-- C10: once `v_t` holds an array with more than one element, any further
call in which the FedAvg aggregation yields a result (and both subscripts
succeed) reaches `not self.v_t` and raises numpy's ambiguous-truth-value
`ValueError` instead of performing the update. -/
theorem c10_truthiness_guard (sq : ℚ → ℚ) (s : FedAdagrad) (rnd : ℕ)
    (results : List FitRes) (failures : List String) (previous_weights : Weights)
    (t : Tensor) (agg0 : Tensor) (aggRest : Weights) (prev0 : Tensor) (prevRest : Weights)
    (hv : s.v_t = some t) (hlen : 1 < t.length)
    (hagg : fedavgAggregateFit s.accept_failures rnd results failures = some (agg0 :: aggRest))
    (hprev : previous_weights = prev0 :: prevRest) :
    s.aggregate_fit sq rnd results failures previous_weights =
      Except.error "ValueError: ambiguous truth value" := by
  subst hprev
  have hnp : vtFalsy s.v_t = Except.error "ValueError: ambiguous truth value" := by
    rw [hv]
    rcases t with _ | ⟨a, _ | ⟨b, r⟩⟩
    · simp at hlen
    · simp at hlen
    · rfl
  simp only [FedAdagrad.aggregate_fit, hagg, hnp]

/-- C10 witness: a first successful call with two-element tensors leaves
`v_t = [1, 1]`; the second call then raises the ambiguous-truth-value
error at the accumulator check. -/
theorem c10_truthiness_guard_witness :
    FedAdagrad.aggregate_fit (fun _ => 0) (FedAdagrad.mk 1 1 true none) 1
        [FitRes.mk [[1, 1]] 1] [] [[0, 0]] =
      Except.ok (some [[1, 1]], FedAdagrad.mk 1 1 true (some [1, 1])) ∧
    FedAdagrad.aggregate_fit (fun _ => 0) (FedAdagrad.mk 1 1 true (some [1, 1])) 2
        [FitRes.mk [[1, 1]] 1] [] [[0, 0]] =
      Except.error "ValueError: ambiguous truth value" :=
  ⟨by simp [FedAdagrad.aggregate_fit, fedavgAggregateFit, fedavg, vtFalsy, npTruthy, Except.map,
      subT, addT, mulT, zerosLike, List.range_succ],
   c10_truthiness_guard (fun _ => 0) (FedAdagrad.mk 1 1 true (some [1, 1])) 2
     [FitRes.mk [[1, 1]] 1] [] [[0, 0]] [1, 1] [1, 1] [] [0, 0] [] rfl (by decide)
     (by simp [fedavgAggregateFit, fedavg, List.range_succ]) rfl⟩

/-- The weighted average is invariant under permutation of the results,
provided all results share one tensor-shape list `S` (the spec's
shape-compatibility invariant). -/
theorem fedavg_perm (S : List ℕ) (rs rs' : List FitRes)
    (hS : ∀ r ∈ rs, r.weights.map List.length = S) (h : rs.Perm rs') :
    fedavg rs = fedavg rs' := by
  cases rs with
  | nil =>
      have h0 : rs' = [] := h.symm.eq_nil
      rw [h0]
  | cons r rest =>
      cases rs' with
      | nil => exact absurd h.eq_nil (by simp)
      | cons r' rest' =>
          have hr : r.weights.map List.length = S := hS r (by simp)
          have hr' : r'.weights.map List.length = S := by
            refine hS r' ?_
            exact h.symm.subset (by simp)
          have hsum : ∀ (f : FitRes → ℚ),
              ((r :: rest).map f).sum = ((r' :: rest').map f).sum :=
            fun f => (h.map f).sum_eq
          have hinner : ∀ j : ℕ,
              (r.weights.getD j []).length = (r'.weights.getD j []).length := by
            intro j
            rw [getD_length_map, getD_length_map, hr, hr']
          have hlen : r.weights.length = r'.weights.length := by
            have h1 := congrArg List.length hr
            have h2 := congrArg List.length hr'
            rw [List.length_map] at h1 h2
            rw [h1, h2]
          simp only [fedavg]
          rw [hlen]
          refine List.map_congr_left ?_
          intro j _
          rw [hinner j]
          refine List.map_congr_left ?_
          intro k _
          rw [hsum, hsum]

/-- The inherited FedAvg aggregation (failure gate included) is invariant
under permutation of the results. -/
theorem fedavgAggregateFit_perm (af : Bool) (rnd : ℕ) (rs rs' : List FitRes)
    (fails : List String) (S : List ℕ)
    (hS : ∀ r ∈ rs, r.weights.map List.length = S) (h : rs.Perm rs') :
    fedavgAggregateFit af rnd rs fails = fedavgAggregateFit af rnd rs' fails := by
  unfold fedavgAggregateFit
  have hempty : rs = [] ↔ rs' = [] := by
    constructor
    · intro he; subst he; exact h.symm.eq_nil
    · intro he; subst he; exact h.eq_nil
  by_cases hc : af = false ∧ fails ≠ []
  · simp [hc]
  · rw [if_neg hc, if_neg hc]
    by_cases he : rs = []
    · have he' : rs' = [] := hempty.mp he
      rw [if_pos he, if_pos he']
    · have he' : rs' ≠ [] := fun x => he (hempty.mpr x)
      rw [if_neg he, if_neg he', fedavg_perm S rs rs' hS h]

/-- C7: `FedAdagrad.aggregate_fit` is order-invariant — permuting the
results list (all results sharing one shape, per the Parameters
shape-compatibility invariant) leaves the outcome and state unchanged —
and the weighted average of a single result (with positive
`num_examples`) is that client's own weights, so the pseudo-gradient is
that client's parameters minus the previous parameters. -/
theorem c7_order_invariance :
    (∀ (sq : ℚ → ℚ) (s : FedAdagrad) (rnd : ℕ) (results results' : List FitRes)
        (failures : List String) (previous_weights : Weights) (S : List ℕ),
        (∀ r ∈ results, r.weights.map List.length = S) →
        results.Perm results' →
        s.aggregate_fit sq rnd results failures previous_weights =
          s.aggregate_fit sq rnd results' failures previous_weights) ∧
    (∀ r : FitRes, 0 < r.numExamples → fedavg [r] = r.weights) := by
  constructor
  · intro sq s rnd results results' failures previous_weights S hS hperm
    have hfa := fedavgAggregateFit_perm s.accept_failures rnd results results' failures S hS hperm
    simp only [FedAdagrad.aggregate_fit, hfa]
  · intro r hr
    have hn : (r.numExamples : ℚ) ≠ 0 := Nat.cast_ne_zero.mpr hr.ne'
    have hentry : ∀ j k : ℕ,
        (([r].map (fun x => (x.numExamples : ℚ) * ((x.weights.getD j []).getD k 0))).sum)
            / (([r].map (fun x => (x.numExamples : ℚ))).sum)
          = (r.weights.getD j []).getD k 0 := by
      intro j k
      simp only [List.map_cons, List.map_nil, List.sum_cons, List.sum_nil, add_zero]
      exact mul_div_cancel_left₀ _ hn
    have hrow : ∀ j ∈ List.range r.weights.length,
        (List.range (r.weights.getD j []).length).map (fun k =>
            (([r].map (fun x => (x.numExamples : ℚ) * ((x.weights.getD j []).getD k 0))).sum)
              / (([r].map (fun x => (x.numExamples : ℚ))).sum))
          = r.weights.getD j [] := by
      intro j _
      refine Eq.trans (List.map_congr_left ?_) (range_map_getD 0 (r.weights.getD j []))
      intro k _
      exact hentry j k
    simp only [fedavg]
    exact Eq.trans (List.map_congr_left hrow) (range_map_getD [] r.weights)

/-- C7 witness: two single-tensor clients swapped, and the singleton
average of a client with weights `[[5]]` and three examples. -/
theorem c7_order_invariance_witness :
    FedAdagrad.aggregate_fit (fun _ => 0) (FedAdagrad.mk 1 1 true none) 1
        [FitRes.mk [[1]] 1, FitRes.mk [[3]] 1] [] [[0]] =
      FedAdagrad.aggregate_fit (fun _ => 0) (FedAdagrad.mk 1 1 true none) 1
        [FitRes.mk [[3]] 1, FitRes.mk [[1]] 1] [] [[0]] ∧
    fedavg [FitRes.mk [[5]] 3] = [[5]] :=
  ⟨c7_order_invariance.1 (fun _ => 0) (FedAdagrad.mk 1 1 true none) 1
      [FitRes.mk [[1]] 1, FitRes.mk [[3]] 1] [FitRes.mk [[3]] 1, FitRes.mk [[1]] 1]
      [] [[0]] [1] (by decide)
      (List.Perm.swap (FitRes.mk [[3]] 1) (FitRes.mk [[1]] 1) []),
   c7_order_invariance.2 (FitRes.mk [[5]] 3) (by decide)⟩

/-- C6: for every server setting selecting the `fast-and-slow`, `fedfs-v0`
or `fedfs-v1` strategy with `training_round_timeout` unset, the
strategy-selection phase of `main` raises a `ValueError` — the run never
reaches server instantiation or `start_server`. -/
theorem c6_timeout_required (s : ServerSetting)
    (hstrat : s.strategy = "fast-and-slow" ∨ s.strategy = "fedfs-v0" ∨
      s.strategy = "fedfs-v1")
    (htimeout : s.training_round_timeout = none) :
    ∃ msg, mainStrategyPhase s = MainOutcome.valueError msg := by
  rcases hstrat with h | h | h
  · exact ⟨"No `training_round_timeout` set for `fast-and-slow` strategy",
      by simp [mainStrategyPhase, h, htimeout]⟩
  · exact ⟨"No `training_round_timeout` set for `fedfs-v0` strategy",
      by simp [mainStrategyPhase, h, htimeout]⟩
  · exact ⟨"No `training_round_timeout` set for `fedfs-v1` strategy",
      by simp [mainStrategyPhase, h, htimeout]⟩

/-- C6 witness: a `fast-and-slow` setting with no timeout. -/
theorem c6_timeout_required_witness :
    ∃ msg, mainStrategyPhase
        (ServerSetting.mk "fast-and-slow" 2 1 none none 1 2 2 false false false false false)
      = MainOutcome.valueError msg :=
  c6_timeout_required
    (ServerSetting.mk "fast-and-slow" 2 1 none none 1 2 2 false false false false false)
    (Or.inl rfl) rfl

/-- C8: the per-round fit configuration is a string-to-string association
list built fresh per round: its `"epoch_global"` entry is the string form
of the round number, it has a `"timeout"` entry exactly when a timeout was
configured, and that entry is the string form of the configured timeout. -/
theorem c8_fit_config (lr_initial : ℚ) (timeout : Option ℕ) (partial_updates : Bool)
    (rnd : ℕ) :
    (get_on_fit_config_fn lr_initial timeout partial_updates rnd).lookup "epoch_global"
        = some (toString rnd) ∧
    ((get_on_fit_config_fn lr_initial timeout partial_updates rnd).lookup "timeout" ≠ none
        ↔ timeout ≠ none) ∧
    (∀ t : ℕ, timeout = some t →
      (get_on_fit_config_fn lr_initial timeout partial_updates rnd).lookup "timeout"
        = some (toString t)) := by
  refine ⟨?_, ?_, ?_⟩
  · cases timeout <;> rfl
  · cases timeout with
    | none => simp [get_on_fit_config_fn, List.lookup]
    | some t => simp [get_on_fit_config_fn, List.lookup]
  · intro t ht
    subst ht
    rfl

/-- C8 witness: round 3, timeout 20 seconds. -/
theorem c8_fit_config_witness :
    (get_on_fit_config_fn 1 (some 20) false 3).lookup "epoch_global"
        = some (toString (3 : ℕ)) ∧
    ((get_on_fit_config_fn 1 (some 20) false 3).lookup "timeout" ≠ none
        ↔ (some 20 : Option ℕ) ≠ none) ∧
    (∀ t : ℕ, (some 20 : Option ℕ) = some t →
      (get_on_fit_config_fn 1 (some 20) false 3).lookup "timeout"
        = some (toString t)) :=
  c8_fit_config 1 (some 20) false 3

end Flower
